import Mathlib

/-!
Verification of the `simple_ado` ADO API wrapper (`simple_ado/__init__.py`).

The file embeds, as executable Lean definitions, the operations of the
top-level `ADOClient` facade: branch-name canonicalization, the
`create_pull_request` request-body construction, `verify_access`, and the
pagination loop of `list_all_pull_requests`.  The HTTP client module
(`simple_ado.http_client`) is not part of the given sources, so its
interface (`get` / `decode_response` / `extract_value` and the exception
taxonomy) is modelled from the specification and passed in as an explicit
parameter wherever the facade calls it.
-/

namespace SimpleADO

/-- The Python method `str.startswith(p)`: `p` is a prefix of `s`, embedded as a
prefix test on the character data of the strings. -/
def startswith (s p : String) : Bool :=
  p.data.isPrefixOf s.data

/-- `_canonicalize_branch_name` (source lines 247-257): if the branch name
does not start with `"refs/heads/"`, return `"refs/heads/" + branch_name`,
otherwise return it unchanged. -/
def _canonicalize_branch_name (branch_name : String) : String :=
  if !(startswith branch_name "refs/heads/") then
    "refs/heads/" ++ branch_name
  else
    branch_name

/-- JSON-like values, enough to express the request bodies built by the
client and the decoded response envelopes. -/
inductive JSONValue where
  | str (s : String)
  | arr (elems : List JSONValue)
  | obj (fields : List (String × JSONValue))
deriving Repr

/-- Modelled from the spec: `extract_value` of the HTTP Client (module not
under the given sources) — "returns `body[\x7bvalue\x7d]` if that key
exists, else returns `body` unchanged".  Never fails. -/
def extract_value (body : JSONValue) : JSONValue :=
  match body with
  | .obj fields =>
    match fields.lookup "value" with
    | some v => v
    | none => body
  | other => other

/-- Modelled from the spec: the two-tier exception taxonomy of §7 — an
`Http`-failure (transport failed, no response) or a `Decode`-failure
(non-2xx status or unparseable body).  Both are `ADOException`s, the type
caught by `verify_access`. -/
inductive ADOException where
  | httpFailure (msg : String)
  | decodeFailure (msg : String)
deriving Repr, DecidableEq

/-- `ADOClient.verify_access` (source lines 97-112): issue the listing
request, decode it, extract the value; return `False` if any step raises
an `ADOException`, `True` otherwise.  The HTTP client is not under the
given sources, so the outcome of `http_client.get` on the fixed listing
URL and the behaviour of `http_client.decode_response` are passed in as
parameters (`ρ` is the raw-response type). -/
def verify_access {ρ : Type} (get_result : Except ADOException ρ)
    (decode_response : ρ → Except ADOException JSONValue) : Bool :=
  match get_result with
  | .error _ => false
  | .ok response =>
    match decode_response response with
    | .error _ => false
    | .ok response_data =>
      let _extracted := extract_value response_data
      true

/-- The request body built by `ADOClient.create_pull_request` (source
lines 142-155), as an insertion-ordered key/value list (Python dicts
preserve insertion order):
the dict starts with `sourceRefName` and `targetRefName` (both
canonicalized); `title` and `description` are inserted only when not
`None`; `reviewers` is inserted only when `reviewer_ids` is not `None`
and non-empty, as a list of `\x7b"id": reviewer_id\x7d` objects. -/
def create_pull_request_body (source_branch target_branch : String)
    (title description : Option String)
    (reviewer_ids : Option (List String)) : List (String × JSONValue) :=
  let body : List (String × JSONValue) :=
    [("sourceRefName", .str (_canonicalize_branch_name source_branch)),
     ("targetRefName", .str (_canonicalize_branch_name target_branch))]
  let body := match title with
    | some t => body ++ [("title", .str t)]
    | none => body
  let body := match description with
    | some d => body ++ [("description", .str d)]
    | none => body
  let body := match reviewer_ids with
    | some ids =>
      if ids.length > 0 then
        body ++ [("reviewers", .arr (ids.map fun reviewer_id =>
          .obj [("id", .str reviewer_id)]))]
      else body
    | none => body
  body

/-- One page request issued by `ADOClient.list_all_pull_requests`.  The
source (lines 184-191) builds the request URL by string concatenation:
`\x7bbase_url\x7d/git/repositories/\x7brepository_id\x7d/pullRequests?`
followed by `$top=100&$skip=\x7boffset\x7d`, then (when `branch_name` is
not `None`) `&sourceRefName=\x7bcanonicalized branch\x7d`, then
`&api-version=3.0-preview`.  The structure records the three query
parameters that vary or are claim-relevant, exactly as the code puts them
into the URL. -/
structure PRListRequest where
  top : Nat
  skip : Nat
  sourceRefName : Option String
deriving Repr, DecidableEq

/-- Modelled from the spec: the composite of `http_client.get`,
`http_client.decode_response` and `http_client.extract_value` for one
pull-request page request (the HTTP client module is not under the given
sources).  Each call either yields the extracted page — a list of
payload items — or raises an `ADOException` (§4.2: "every failure
surfaces as a typed exception"). -/
def PageServer (α : Type) : Type :=
  PRListRequest → Except ADOException (List α)

/-- The page request issued at a given `offset` (source lines 184-191):
`$top` is the literal `100`, `$skip` is the current offset, and
`sourceRefName` is the canonicalized branch name when `branch_name` is
not `None`. -/
def listRequest (branch_name : Option String) (offset : Nat) : PRListRequest :=
  ⟨100, offset, branch_name.map _canonicalize_branch_name⟩

/-- The `while True` loop of `ADOClient.list_all_pull_requests` (source
lines 182-203), with an explicit fuel bound on the number of iterations
(the code itself has none).  State: `offset` (starts at 0) and `all_prs`
(starts empty).  Each iteration issues the request `\x7btop := 100,
skip := offset, sourceRefName := canonicalized branch_name if present\x7d`;
an exception aborts the whole loop; a page of length 0 breaks the loop
returning `all_prs`; otherwise the page is appended and `offset += 100`.
Returns the trace of requests issued together with the outcome:
`Except.error e` when a page request raised `e`, `Except.ok (some prs)`
when the loop broke on an empty page, and `Except.ok none` when the fuel
ran out with the loop still running. -/
def listAllPullRequestsLoop {α : Type} (server : PageServer α)
    (branch_name : Option String) :
    Nat → Nat → List α → List PRListRequest × Except ADOException (Option (List α))
  | 0, _, _ => ([], .ok none)
  | fuel + 1, offset, all_prs =>
    let request : PRListRequest := listRequest branch_name offset
    match server request with
    | .error e => ([request], .error e)
    | .ok extracted =>
      if extracted.length = 0 then
        ([request], .ok (some all_prs))
      else
        let rest := listAllPullRequestsLoop server branch_name fuel
          (offset + 100) (all_prs ++ extracted)
        (request :: rest.1, rest.2)

/-- `ADOClient.list_all_pull_requests` (source lines 168-205): run the
pagination loop from `offset = 0` and `all_prs = []`, under the given
fuel. -/
def list_all_pull_requests {α : Type} (server : PageServer α)
    (branch_name : Option String) (fuel : Nat) :
    List PRListRequest × Except ADOException (Option (List α)) :=
  listAllPullRequestsLoop server branch_name fuel 0 []

/-- A fake server for concrete runs: pages of 100, 100, 37 items, then an
empty page (and empty pages from then on). -/
def server100_100_37_0 : PageServer Nat := fun request =>
  if request.skip = 0 then .ok (List.range 100)
  else if request.skip = 100 then .ok (List.range 100)
  else if request.skip = 200 then .ok (List.range 37)
  else .ok []

/-- A fake server that always returns the same non-empty page of 3 items
and never an empty page. -/
def serverAlways3 : PageServer Nat := fun _ => .ok [7, 8, 9]

/-- A fake server whose first page is fine and whose second page request
raises a Decode-failure. -/
def serverFailsAt100 : PageServer Nat := fun request =>
  if request.skip = 0 then .ok [1, 2]
  else .error (.decodeFailure "boom")

lemma isPrefixOf_append_self (p t : List Char) : p.isPrefixOf (p ++ t) = true := by
  induction p with
  | nil => simp [List.isPrefixOf]
  | cons a as ih => simp [List.isPrefixOf, ih]

lemma startswith_append_self (p s : String) : startswith (p ++ s) p = true := by
  unfold startswith
  rw [String.data_append]
  exact isPrefixOf_append_self p.data s.data

lemma canonicalize_of_startswith (s : String)
    (h : startswith s "refs/heads/" = true) : _canonicalize_branch_name s = s := by
  simp [_canonicalize_branch_name, h]

lemma canonicalize_of_not_startswith (s : String)
    (h : startswith s "refs/heads/" = false) :
    _canonicalize_branch_name s = "refs/heads/" ++ s := by
  simp [_canonicalize_branch_name, h]

/-- C6: Branch-name canonicalization is idempotent: for every input string
`s`, canonicalizing `s` twice yields the same string as canonicalizing `s`
once. -/
theorem canonicalize_branch_name_idempotent (s : String) :
    _canonicalize_branch_name (_canonicalize_branch_name s) =
      _canonicalize_branch_name s := by
  cases h : startswith s "refs/heads/" with
  | true =>
    rw [canonicalize_of_startswith s h, canonicalize_of_startswith s h]
  | false =>
    rw [canonicalize_of_not_startswith s h,
      canonicalize_of_startswith _ (startswith_append_self "refs/heads/" s)]

/-- C7: canonicalizing `"main"` yields `"refs/heads/main"`; canonicalizing
`"refs/heads/main"` yields `"refs/heads/main"` unchanged; in general a
name that does not start with `"refs/heads/"` is rewritten by prefixing
`"refs/heads/"`, and a name that already starts with it passes through
unchanged. -/
theorem canonicalize_branch_name_round_trip :
    _canonicalize_branch_name "main" = "refs/heads/main"
    ∧ _canonicalize_branch_name "refs/heads/main" = "refs/heads/main"
    ∧ (∀ s : String, startswith s "refs/heads/" = false →
        _canonicalize_branch_name s = "refs/heads/" ++ s)
    ∧ (∀ s : String, startswith s "refs/heads/" = true →
        _canonicalize_branch_name s = s) := by
  refine ⟨by decide, by decide, ?_, ?_⟩
  · exact canonicalize_of_not_startswith
  · exact canonicalize_of_startswith

/-- Witness for C7: concrete instantiation of the two general clauses. -/
theorem canonicalize_branch_name_round_trip_witness :
    _canonicalize_branch_name "dev" = "refs/heads/dev"
    ∧ _canonicalize_branch_name "refs/heads/dev" = "refs/heads/dev" :=
  ⟨canonicalize_branch_name_round_trip.2.2.1 "dev" (by decide),
   canonicalize_branch_name_round_trip.2.2.2 "refs/heads/dev" (by decide)⟩

/-- C4: with only source and target branches the request body is exactly
`sourceRefName` and `targetRefName` (canonicalized) and no other keys;
`reviewer_ids = ["a", "b"]` additionally appends
`reviewers: [\x7b"id": "a"\x7d, \x7b"id": "b"\x7d]`; `reviewer_ids = []`
adds no `reviewers` key. -/
theorem create_pull_request_body_exact_keys (s t : String) :
    create_pull_request_body s t none none none =
      [("sourceRefName", .str (_canonicalize_branch_name s)),
       ("targetRefName", .str (_canonicalize_branch_name t))]
    ∧ create_pull_request_body s t none none (some ["a", "b"]) =
      [("sourceRefName", .str (_canonicalize_branch_name s)),
       ("targetRefName", .str (_canonicalize_branch_name t)),
       ("reviewers", .arr [.obj [("id", .str "a")], .obj [("id", .str "b")]])]
    ∧ create_pull_request_body s t none none (some []) =
      [("sourceRefName", .str (_canonicalize_branch_name s)),
       ("targetRefName", .str (_canonicalize_branch_name t))] :=
  ⟨rfl, rfl, rfl⟩

/-- C10: passing `title = None` (resp. `description = None`) leaves the
corresponding key out of the request body for every combination of the
other arguments — `None` is the do-not-send signal, indistinguishable from
omitting the argument (whose Python default is also `None`). -/
theorem create_pull_request_none_means_absent (s t : String)
    (ti d : Option String) (r : Option (List String)) :
    ((create_pull_request_body s t none d r).map Prod.fst).contains "title" = false
    ∧ ((create_pull_request_body s t ti none r).map Prod.fst).contains
        "description" = false := by
  cases ti <;> cases d <;> cases r <;>
    simp [create_pull_request_body, List.contains] <;>
    split <;>
    simp [List.contains]

/-- C5: `verify_access` returns `true` exactly when `get` and
`decode_response` both succeed (the subsequent `extract_value` never
fails), and returns `false` whenever either step raises an
`ADOException` — be it an Http-failure or a Decode-failure.  It is a
total `Bool`-valued function, so it never propagates an exception. -/
theorem verify_access_true_iff_no_exception {ρ : Type}
    (get_result : Except ADOException ρ)
    (decode_response : ρ → Except ADOException JSONValue) :
    (∀ e, get_result = .error e →
      verify_access get_result decode_response = false)
    ∧ (∀ r e, get_result = .ok r → decode_response r = .error e →
      verify_access get_result decode_response = false)
    ∧ (∀ r d, get_result = .ok r → decode_response r = .ok d →
      verify_access get_result decode_response = true) := by
  refine ⟨?_, ?_, ?_⟩
  · intro e he
    subst he
    rfl
  · intro r e hr hd
    subst hr
    simp [verify_access, hd]
  · intro r d hr hd
    subst hr
    simp [verify_access, hd]

/-- Witness for C6: idempotence at a concrete branch name. -/
theorem canonicalize_branch_name_idempotent_witness :
    _canonicalize_branch_name (_canonicalize_branch_name "feature/x") =
      _canonicalize_branch_name "feature/x" :=
  canonicalize_branch_name_idempotent "feature/x"

/-- Witness for C4: concrete body with two reviewers. -/
theorem create_pull_request_body_exact_keys_witness :
    create_pull_request_body "main" "develop" none none (some ["a", "b"]) =
      [("sourceRefName", .str "refs/heads/main"),
       ("targetRefName", .str "refs/heads/develop"),
       ("reviewers", .arr [.obj [("id", .str "a")], .obj [("id", .str "b")]])] := by
  have h := (create_pull_request_body_exact_keys "main" "develop").2.1
  have hm : _canonicalize_branch_name "main" = "refs/heads/main" := by decide
  have hd : _canonicalize_branch_name "develop" = "refs/heads/develop" := by decide
  rw [h, hm, hd]

/-- Witness for C10: concrete bodies where `title` (resp. `description`)
is `None` while every other optional argument is supplied. -/
theorem create_pull_request_none_means_absent_witness :
    ((create_pull_request_body "m" "d" none (some "D")
        (some ["a"])).map Prod.fst).contains "title" = false
    ∧ ((create_pull_request_body "m" "d" (some "T") none
        (some ["a"])).map Prod.fst).contains "description" = false :=
  ⟨(create_pull_request_none_means_absent "m" "d" (some "T") (some "D")
      (some ["a"])).1,
   (create_pull_request_none_means_absent "m" "d" (some "T") (some "D")
      (some ["a"])).2⟩

/-- Witness for C5: concrete outcomes for a successful run, an
Http-failure on `get`, and a Decode-failure on `decode_response`. -/
theorem verify_access_true_iff_no_exception_witness :
    verify_access (.ok (0 : Nat)) (fun _ => .ok (.obj [])) = true
    ∧ verify_access
        (.error (ADOException.httpFailure "down") : Except ADOException Nat)
        (fun _ => .ok (.obj [])) = false
    ∧ verify_access (.ok (0 : Nat))
        (fun _ => .error (ADOException.decodeFailure "bad")) = false :=
  ⟨(verify_access_true_iff_no_exception (.ok (0 : Nat))
      (fun _ => .ok (.obj []))).2.2 0 (.obj []) rfl rfl,
   (verify_access_true_iff_no_exception _ _).1 (.httpFailure "down") rfl,
   (verify_access_true_iff_no_exception (.ok (0 : Nat))
      (fun _ => .error (.decodeFailure "bad"))).2.1 0 (.decodeFailure "bad")
      rfl rfl⟩

lemma loop_error {α : Type} (server : PageServer α) (branch_name : Option String)
    (offset fuel : Nat) (acc : List α) (e : ADOException)
    (hs : server (listRequest branch_name offset) = .error e) (hf : 1 ≤ fuel) :
    listAllPullRequestsLoop server branch_name fuel offset acc =
      ([listRequest branch_name offset], .error e) := by
  cases fuel with
  | zero => omega
  | succ f => simp [listAllPullRequestsLoop, hs]

lemma loop_break {α : Type} (server : PageServer α) (branch_name : Option String)
    (offset fuel : Nat) (acc p : List α)
    (hs : server (listRequest branch_name offset) = .ok p) (hl : p.length = 0)
    (hf : 1 ≤ fuel) :
    listAllPullRequestsLoop server branch_name fuel offset acc =
      ([listRequest branch_name offset], .ok (some acc)) := by
  cases fuel with
  | zero => omega
  | succ f => simp [listAllPullRequestsLoop, hs, hl]

lemma loop_step {α : Type} (server : PageServer α) (branch_name : Option String)
    (offset fuel : Nat) (acc p : List α)
    (hs : server (listRequest branch_name offset) = .ok p) (hl : p.length ≠ 0) :
    listAllPullRequestsLoop server branch_name (fuel + 1) offset acc =
      (listRequest branch_name offset ::
        (listAllPullRequestsLoop server branch_name fuel (offset + 100) (acc ++ p)).1,
       (listAllPullRequestsLoop server branch_name fuel (offset + 100) (acc ++ p)).2) := by
  simp [listAllPullRequestsLoop, hs, hl]

/-- Chewing through `n` consecutive non-empty pages: the loop issues the
`n` requests at offsets `offset + 100 * k`, appends the pages in request
order, and continues as the same loop with `n` fewer units of fuel. -/
lemma loop_steps {α : Type} (server : PageServer α) (branch_name : Option String) :
    ∀ (n : Nat) (pages : Nat → List α) (fuel offset : Nat) (acc : List α),
      (∀ k, k < n →
        server (listRequest branch_name (offset + 100 * k)) = .ok (pages k)
        ∧ (pages k).length ≠ 0) →
      n ≤ fuel →
      listAllPullRequestsLoop server branch_name fuel offset acc =
        (((List.range n).map fun k => listRequest branch_name (offset + 100 * k)) ++
           (listAllPullRequestsLoop server branch_name (fuel - n) (offset + 100 * n)
             (acc ++ ((List.range n).map pages).flatten)).1,
         (listAllPullRequestsLoop server branch_name (fuel - n) (offset + 100 * n)
           (acc ++ ((List.range n).map pages).flatten)).2) := by
  intro n
  induction n with
  | zero => intro pages fuel offset acc _ _; simp
  | succ m ih =>
    intro pages fuel offset acc hpages hfuel
    cases fuel with
    | zero => omega
    | succ f =>
      have h0 := hpages 0 (by omega)
      have h0s : server (listRequest branch_name offset) = .ok (pages 0) := by
        simpa using h0.1
      have h0l : (pages 0).length ≠ 0 := h0.2
      rw [loop_step server branch_name offset f acc (pages 0) h0s h0l]
      have ihm := ih (fun k => pages (k + 1)) f (offset + 100) (acc ++ pages 0)
        (fun k hk => by
          have := hpages (k + 1) (by omega)
          constructor
          · have harg : offset + 100 * (k + 1) = offset + 100 + 100 * k := by ring
            rw [harg] at this
            exact this.1
          · exact this.2)
        (by omega)
      rw [ihm]
      have harith : f + 1 - (m + 1) = f - m := by omega
      have hoff : offset + 100 + 100 * m = offset + 100 * (m + 1) := by ring
      have hacc : (acc ++ pages 0) ++
            ((List.range m).map fun k => pages (k + 1)).flatten
          = acc ++ ((List.range (m + 1)).map pages).flatten := by
        rw [List.range_succ_eq_map, List.map_cons, List.flatten_cons, List.map_map,
          List.append_assoc]
        rfl
      have htrace : (List.range (m + 1)).map
            (fun k => listRequest branch_name (offset + 100 * k))
          = listRequest branch_name offset ::
            (List.range m).map
              (fun k => listRequest branch_name (offset + 100 + 100 * k)) := by
        rw [List.range_succ_eq_map, List.map_cons, List.map_map]
        refine congrArg₂ _ (by simp) ?_
        refine List.map_congr_left fun k _ => ?_
        show listRequest branch_name (offset + 100 * (k + 1)) = _
        have : offset + 100 * (k + 1) = offset + 100 + 100 * k := by ring
        rw [this]
      rw [harith, ← hoff, ← hacc, htrace, List.cons_append]

/-- If the server never answers a page request with an empty page (and
never raises), the loop never breaks: whatever the fuel, it is still
running when the fuel runs out.  This is the fuel-indexed form of
non-termination of the unbounded `while True` loop. -/
lemma loop_never_breaks {α : Type} (server : PageServer α)
    (branch_name : Option String)
    (h : ∀ r, ∃ p, server r = .ok p ∧ p.length ≠ 0) :
    ∀ (fuel offset : Nat) (acc : List α),
      (listAllPullRequestsLoop server branch_name fuel offset acc).2 = .ok none := by
  intro fuel
  induction fuel with
  | zero => intro offset acc; rfl
  | succ f ih =>
    intro offset acc
    obtain ⟨p, hp, hl⟩ := h (listRequest branch_name offset)
    rw [loop_step server branch_name offset f acc p hp hl]
    exact ih (offset + 100) (acc ++ p)

/-- Every request issued by the loop carries `$top = 100` and exactly the
canonicalized branch filter it was started with. -/
lemma loop_requests_shape {α : Type} (server : PageServer α)
    (branch_name : Option String) :
    ∀ (fuel offset : Nat) (acc : List α) (r : PRListRequest),
      r ∈ (listAllPullRequestsLoop server branch_name fuel offset acc).1 →
      r.top = 100 ∧ r.sourceRefName = branch_name.map _canonicalize_branch_name := by
  intro fuel
  induction fuel with
  | zero => intro offset acc r hr; simp [listAllPullRequestsLoop] at hr
  | succ f ih =>
    intro offset acc r hr
    cases hs : server (listRequest branch_name offset) with
    | error e =>
      rw [loop_error server branch_name offset (f + 1) acc e hs (by omega)] at hr
      simp at hr
      subst hr
      exact ⟨rfl, rfl⟩
    | ok p =>
      by_cases hl : p.length = 0
      · rw [loop_break server branch_name offset (f + 1) acc p hs hl (by omega)] at hr
        simp at hr
        subst hr
        exact ⟨rfl, rfl⟩
      · rw [loop_step server branch_name offset f acc p hs hl] at hr
        rcases List.mem_cons.mp hr with h | h
        · subst h; exact ⟨rfl, rfl⟩
        · exact ih (offset + 100) (acc ++ p) r h

/-- The `i`-th request the loop issues (counting from the start offset)
has `$skip = offset + 100 * i`, whatever the server returns. -/
lemma loop_skip_values {α : Type} (server : PageServer α)
    (branch_name : Option String) :
    ∀ (fuel offset : Nat) (acc : List α) (i : Nat) (r : PRListRequest),
      (listAllPullRequestsLoop server branch_name fuel offset acc).1[i]? = some r →
      r.skip = offset + 100 * i := by
  intro fuel
  induction fuel with
  | zero => intro offset acc i r hr; simp [listAllPullRequestsLoop] at hr
  | succ f ih =>
    intro offset acc i r hr
    cases hs : server (listRequest branch_name offset) with
    | error e =>
      rw [loop_error server branch_name offset (f + 1) acc e hs (by omega)] at hr
      cases i with
      | zero =>
        simp at hr
        subst hr
        simp [listRequest]
      | succ j => simp at hr
    | ok p =>
      by_cases hl : p.length = 0
      · rw [loop_break server branch_name offset (f + 1) acc p hs hl (by omega)] at hr
        cases i with
        | zero =>
          simp at hr
          subst hr
          simp [listRequest]
        | succ j => simp at hr
      · rw [loop_step server branch_name offset f acc p hs hl] at hr
        cases i with
        | zero =>
          simp at hr
          subst hr
          simp [listRequest]
        | succ j =>
          simp only [List.getElem?_cons_succ] at hr
          have := ih (offset + 100) (acc ++ p) j r hr
          rw [this]
          ring

/-- C1: against a server answering the four page requests with pages of
sizes 100, 100, 37 and 0, `list_all_pull_requests` returns the
concatenation of the three non-empty pages (length 237), issues exactly
4 page requests, and the `$skip` values of those requests are 0, 100,
200, 300 in order. -/
theorem list_all_pull_requests_pages_100_100_37_0 {α : Type}
    (server : PageServer α) (branch_name : Option String)
    (p0 p1 p2 p3 : List α)
    (h0 : server (listRequest branch_name 0) = .ok p0) (l0 : p0.length = 100)
    (h1 : server (listRequest branch_name 100) = .ok p1) (l1 : p1.length = 100)
    (h2 : server (listRequest branch_name 200) = .ok p2) (l2 : p2.length = 37)
    (h3 : server (listRequest branch_name 300) = .ok p3) (l3 : p3.length = 0)
    (fuel : Nat) (hf : 4 ≤ fuel) :
    list_all_pull_requests server branch_name fuel =
      ([listRequest branch_name 0, listRequest branch_name 100,
        listRequest branch_name 200, listRequest branch_name 300],
       .ok (some (p0 ++ p1 ++ p2)))
    ∧ (p0 ++ p1 ++ p2).length = 237 := by
  have hsteps := loop_steps server branch_name 3
    (fun k => [p0, p1, p2].getD k []) fuel 0 []
    (fun k hk => by
      match k, hk with
      | 0, _ => exact ⟨by simpa using h0, by simp [l0]⟩
      | 1, _ => exact ⟨by simpa using h1, by simp [l1]⟩
      | 2, _ => exact ⟨by simpa using h2, by simp [l2]⟩)
    (by omega)
  have hrest := loop_break server branch_name (0 + 100 * 3) (fuel - 3)
    ([] ++ (((List.range 3).map fun k => [p0, p1, p2].getD k []).flatten)) p3
    (by simpa using h3) l3 (by omega)
  constructor
  · rw [list_all_pull_requests, hsteps, hrest]
    simp [List.range_succ]
  · simp [l0, l1, l2]

/-- Witness for C1: a concrete fake server with pages of sizes
100, 100, 37, 0. -/
theorem list_all_pull_requests_pages_100_100_37_0_witness :
    list_all_pull_requests server100_100_37_0 none 4 =
      ([listRequest none 0, listRequest none 100,
        listRequest none 200, listRequest none 300],
       .ok (some (List.range 100 ++ List.range 100 ++ List.range 37)))
    ∧ (List.range 100 ++ List.range 100 ++ List.range 37).length = 237 :=
  list_all_pull_requests_pages_100_100_37_0 server100_100_37_0 none
    (List.range 100) (List.range 100) (List.range 37) []
    rfl (by simp) rfl (by simp) rfl (by simp) rfl rfl 4 (by omega)

/-- C2: the loop terminates exactly when the extracted value of a page has
zero elements, concatenating the pages in request order (first clause:
after `n` non-empty pages and one empty page, the result is the ordered
concatenation and exactly `n + 1` requests were issued); and there is no
client-side bound on page count: if the server never returns an empty
page, the loop never breaks, whatever the fuel (second clause — the
fuel-indexed form of non-termination). -/
theorem list_all_pull_requests_termination {α : Type} :
    (∀ (server : PageServer α) (branch_name : Option String)
      (pages : Nat → List α) (n fuel : Nat),
      (∀ k, k < n →
        server (listRequest branch_name (100 * k)) = .ok (pages k)
        ∧ (pages k).length ≠ 0) →
      server (listRequest branch_name (100 * n)) = .ok [] →
      n + 1 ≤ fuel →
      list_all_pull_requests server branch_name fuel =
        ((List.range (n + 1)).map fun k => listRequest branch_name (100 * k),
         .ok (some ((List.range n).map pages).flatten)))
    ∧ (∀ (server : PageServer α) (branch_name : Option String),
      (∀ r, ∃ p, server r = .ok p ∧ p.length ≠ 0) →
      ∀ fuel,
        (list_all_pull_requests server branch_name fuel).2 = .ok none) := by
  constructor
  · intro server branch_name pages n fuel hpages hempty hfuel
    have hsteps := loop_steps server branch_name n pages fuel 0 []
      (fun k hk => by simpa using hpages k hk) (by omega)
    have hrest := loop_break server branch_name (0 + 100 * n) (fuel - n)
      ([] ++ ((List.range n).map pages).flatten) []
      (by simpa using hempty) rfl (by omega)
    rw [list_all_pull_requests, hsteps, hrest]
    simp only [List.nil_append, Nat.zero_add]
    rw [List.range_succ, List.map_append]
    simp
  · intro server branch_name h fuel
    exact loop_never_breaks server branch_name h fuel 0 []

/-- Witness for C2: the 100/100/37/0 server terminates after the empty
page with the pages concatenated in order; a server that always returns
a non-empty page exhausts any amount of fuel without breaking. -/
theorem list_all_pull_requests_termination_witness :
    list_all_pull_requests server100_100_37_0 none 4 =
      ((List.range 4).map fun k => listRequest none (100 * k),
       .ok (some (((List.range 3).map fun k =>
        [List.range 100, List.range 100, List.range 37].getD k []).flatten)))
    ∧ (list_all_pull_requests serverAlways3 none 10).2 = .ok none := by
  constructor
  · exact (list_all_pull_requests_termination (α := Nat)).1 server100_100_37_0 none
      (fun k => [List.range 100, List.range 100, List.range 37].getD k []) 3 4
      (fun k hk => by
        match k, hk with
        | 0, _ => exact ⟨rfl, by simp⟩
        | 1, _ => exact ⟨rfl, by simp⟩
        | 2, _ => exact ⟨rfl, by simp⟩)
      rfl (by omega)
  · exact (list_all_pull_requests_termination (α := Nat)).2 serverAlways3 none
      (fun _ => ⟨[7, 8, 9], rfl, by simp⟩) 10

/-- C3: if the page request at offset `100 * n` raises an exception after
`n` successful non-empty pages, the whole listing operation fails with
that exception — the outcome is the error, not a partial concatenation. -/
theorem list_all_pull_requests_error_propagates {α : Type}
    (server : PageServer α) (branch_name : Option String)
    (pages : Nat → List α) (n : Nat) (e : ADOException)
    (hpages : ∀ k, k < n →
      server (listRequest branch_name (100 * k)) = .ok (pages k)
      ∧ (pages k).length ≠ 0)
    (herr : server (listRequest branch_name (100 * n)) = .error e)
    (fuel : Nat) (hf : n + 1 ≤ fuel) :
    list_all_pull_requests server branch_name fuel =
      ((List.range (n + 1)).map fun k => listRequest branch_name (100 * k),
       .error e) := by
  have hsteps := loop_steps server branch_name n pages fuel 0 []
    (fun k hk => by simpa using hpages k hk) (by omega)
  have hrest := loop_error server branch_name (0 + 100 * n) (fuel - n)
    ([] ++ ((List.range n).map pages).flatten) e
    (by simpa using herr) (by omega)
  rw [list_all_pull_requests, hsteps, hrest]
  simp only [List.nil_append, Nat.zero_add]
  rw [List.range_succ, List.map_append]
  simp

/-- Witness for C3: a server whose second page request raises a
Decode-failure makes the whole listing fail with it. -/
theorem list_all_pull_requests_error_propagates_witness :
    list_all_pull_requests serverFailsAt100 none 5 =
      ((List.range 2).map fun k => listRequest none (100 * k),
       .error (.decodeFailure "boom")) :=
  list_all_pull_requests_error_propagates serverFailsAt100 none
    (fun _ => [1, 2]) 1 (.decodeFailure "boom")
    (fun k hk => by
      match k, hk with
      | 0, _ => exact ⟨rfl, by simp⟩)
    rfl 5 (by omega)

/-- C8: every page request issued by `list_all_pull_requests` uses page
size `$top = 100`; when a branch name is supplied every request carries
`sourceRefName` equal to the canonicalized branch name, and when it is
absent no request carries a `sourceRefName` parameter. -/
theorem list_all_pull_requests_query_params {α : Type}
    (server : PageServer α) (fuel : Nat) :
    (∀ (b : String) (r : PRListRequest),
      r ∈ (list_all_pull_requests server (some b) fuel).1 →
      r.top = 100 ∧ r.sourceRefName = some (_canonicalize_branch_name b))
    ∧ (∀ r : PRListRequest,
      r ∈ (list_all_pull_requests server none fuel).1 →
      r.top = 100 ∧ r.sourceRefName = none) := by
  constructor
  · intro b r hr
    have h := loop_requests_shape server (some b) fuel 0 [] r hr
    simpa using h
  · intro r hr
    have h := loop_requests_shape server none fuel 0 [] r hr
    simpa using h

/-- Witness for C8: the first request of a concrete filtered run carries
`$top = 100` and the canonicalized branch filter. -/
theorem list_all_pull_requests_query_params_witness :
    (listRequest (some "main") 0).top = 100
    ∧ (listRequest (some "main") 0).sourceRefName = some "refs/heads/main" := by
  have h := (list_all_pull_requests_query_params server100_100_37_0 1).1 "main"
    (listRequest (some "main") 0) (by decide)
  have hm : _canonicalize_branch_name "main" = "refs/heads/main" := by decide
  rw [hm] at h
  exact h

/-- C9: the `i`-th page request of any run has `$skip = 100 * i`: the
offset advances by exactly 100 per non-empty page regardless of how many
items each page actually contained. -/
theorem list_all_pull_requests_skip_advances_by_100 {α : Type}
    (server : PageServer α) (branch_name : Option String)
    (fuel i : Nat) (r : PRListRequest)
    (hr : (list_all_pull_requests server branch_name fuel).1[i]? = some r) :
    r.skip = 100 * i := by
  have h := loop_skip_values server branch_name fuel 0 [] i r hr
  simpa using h

/-- Witness for C9: against a server whose pages all have 3 items (far
fewer than 100), the second request still skips to 100. -/
theorem list_all_pull_requests_skip_advances_by_100_witness :
    (listRequest none 100).skip = 100 := by
  have h := list_all_pull_requests_skip_advances_by_100 serverAlways3 none 3 1
    (listRequest none 100) (by decide)
  simpa using h

end SimpleADO
